import Mathlib

/-!
Shallow embedding of the French grammar checking engine:
the rule orchestrator `FrenchGrammarRules` (src/app/cors/__init__.py),
the service `FrenchGrammarChecker` (src/app/cors/grammar_checker.py) and
the helpers `detect_compound_tenses` / `validate_adverb_placement`
(src/app/common/utils.py).

Python strings are modelled as Lean `String`s whose character sequence is
`String.data` (Python slicing is slicing of that character list); Python
`list`s are Lean `List`s; a Python `dict` is an association list with
insert-or-replace update, preserving insertion order as CPython does; a
spaCy `Doc` is a list of tokens carrying the attributes the code reads,
with the head pointer stored as the head's sequential index; raising an
exception is returning `Except.error`.
-/

namespace FrenchGrammar

/-- Single-quote character, used to build the French diagnostic messages. -/
def sq : String := String.singleton (Char.ofNat 39)

/-- Categories of grammar rules (`RuleType` enum; `auto()` numbers the
members 1..5 in declaration order). -/
inductive RuleType where
  | ADVERB
  | CONJUGATION
  | AGREEMENT
  | STRUCTURE
  | PUNCTUATION
deriving DecidableEq, Repr

/-- Declaration-order value of each enum member (`auto()` assigns 1..5);
this is the order the spec calls "rule category enum order". -/
def RuleType.enumIdx : RuleType → Nat
  | .ADVERB => 1
  | .CONJUGATION => 2
  | .AGREEMENT => 3
  | .STRUCTURE => 4
  | .PUNCTUATION => 5

/-- Member list of the enum in declaration order (iteration order of
`for rule_type in RuleType`). -/
def RuleType.members : List RuleType :=
  [.ADVERB, .CONJUGATION, .AGREEMENT, .STRUCTURE, .PUNCTUATION]

/-- French label of each rule category (`RuleType.french_label`). -/
def RuleType.french_label : RuleType → String
  | .ADVERB => "Place des adverbes"
  | .CONJUGATION => "Conjugaison"
  | .AGREEMENT => "Accord"
  | .STRUCTURE => "Structure de phrase"
  | .PUNCTUATION => "Ponctuation"

/-- Model of a spaCy token: the attributes the checked code reads.
`headIdx` is the sequential index `i` of the token's syntactic head
(spaCy represents the root as its own head, i.e. `headIdx = i`). -/
structure SToken where
  text : String
  lemma_ : String
  pos_ : String
  tag_ : String
  dep_ : String
  i : Nat
  headIdx : Nat
  is_punct : Bool
  is_stop : Bool
deriving DecidableEq, Repr

/-- Model of a spaCy `Doc`: the token sequence produced by the parser. -/
abbrev Doc := List SToken

/-- Detailed grammar error representation (`GrammarError` dataclass). -/
structure GrammarError where
  rule_type : RuleType
  message : String
  suggestion : String
  context : String
  start_pos : Nat
  end_pos : Nat
  source_text : String
deriving DecidableEq, Repr

/-- Generate highlighted error context (`GrammarError.highlighted`):
`source_text[:start_pos] + ">>>" + source_text[start_pos:end_pos] + "<<<"
+ source_text[end_pos:]`, Python slices taken on the character sequence. -/
def GrammarError.highlighted (e : GrammarError) : String :=
  let s := e.source_text.data
  let before := s.take e.start_pos
  let err := (s.drop e.start_pos).take (e.end_pos - e.start_pos)
  let after := s.drop e.end_pos
  String.mk (before ++ ">>>".data ++ err ++ "<<<".data ++ after)

/-- Model of a grammar rule implementation (the `GrammarRule` protocol):
its `rule_type` tag and its `apply` method, which either returns a list of
errors or raises (`Except.error`). -/
structure GrammarRule where
  rule_type : RuleType
  apply : Doc → Except String (List GrammarError)

/-- The orchestrator's `_rules` dictionary: an insertion-ordered
association list from rule type to rule implementation. -/
abbrev Registry := List (RuleType × GrammarRule)

/-- CPython `dict` lookup `m.get(k)`. -/
def dictGet (m : Registry) (k : RuleType) : Option GrammarRule :=
  match m with
  | [] => none
  | (k2, v) :: rest => if k2 = k then some v else dictGet rest k

/-- CPython `dict` update `m[k] = v`: replaces in place when the key is
present, otherwise appends at the end (insertion order preserved). -/
def dictSet (m : Registry) (k : RuleType) (v : GrammarRule) : Registry :=
  match m with
  | [] => [(k, v)]
  | (k2, v2) :: rest =>
      if k2 = k then (k2, v) :: rest else (k2, v2) :: dictSet rest k v

/-- Stable insertion of `x` (the later-arriving element) into an
accumulator: `x` goes after every element whose key is `≤ key x`. -/
def insertStable (key : α → Nat) (x : α) : List α → List α
  | [] => [x]
  | y :: ys => if key x < key y then x :: y :: ys else y :: insertStable key x ys

/-- Stable sort by a natural-number key, processing the input left to
right; models CPython's guaranteed-stable `sorted(·, key=·)`. -/
def stableSortByKey (key : α → Nat) (l : List α) : List α :=
  l.foldl (fun acc x => insertStable key x acc) []

/-- Errors contributed by one rule inside `FrenchGrammarRules.check`: on
success every error gets `source_text` overwritten with the checked text;
a raised exception is caught and contributes no errors. -/
def ruleErrors (text : String) (doc : Doc) (r : GrammarRule) : List GrammarError :=
  match r.apply doc with
  | .ok es => es.map (fun e => { e with source_text := text })
  | .error _ => []

namespace FrenchGrammarRules

/-- Validate French text against all registered rules
(`FrenchGrammarRules.check`): parse, run every rule with per-rule failure
isolation, attach the original text to each error, and sort the merged
list by `start_pos` with Python's stable sort. -/
def check (reg : Registry) (parser : String → Doc) (text : String) :
    List GrammarError :=
  let doc := parser text
  stableSortByKey (fun e => e.start_pos)
    ((reg.map (fun p => ruleErrors text doc p.2)).flatten)

/-- Access specific rule category (`FrenchGrammarRules.get_rule`). -/
def get_rule (reg : Registry) (t : RuleType) : Option GrammarRule :=
  dictGet reg t

/-- Register a custom rule implementation (`FrenchGrammarRules.add_rule`);
the `isinstance` guard always passes in this typed model. -/
def add_rule (reg : Registry) (r : GrammarRule) : Registry :=
  dictSet reg r.rule_type r

end FrenchGrammarRules

/-! Common utilities (src/app/common/utils.py). -/

/-- French POS tags mapping (`FRENCH_POS_TAGS` in constants.py). -/
def FRENCH_POS_TAGS : List (String × String) :=
  [("NOUN", "Nom"), ("VERB", "Verbe"), ("ADV", "Adverbe"),
   ("ADJ", "Adjectif"), ("PRON", "Pronom"), ("DET", "Déterminant"),
   ("ADP", "Préposition"), ("CONJ", "Conjonction"),
   ("SCONJ", "Conjonction de subordination"),
   ("CCONJ", "Conjonction de coordination"), ("AUX", "Auxiliaire"),
   ("PART", "Particule"), ("INTJ", "Interjection"), ("NUM", "Numéral"),
   ("PROPN", "Nom propre"), ("PUNCT", "Ponctuation"), ("SYM", "Symbole"),
   ("X", "Autre"), ("SUBJ", "Sujet")]

/-- Convert a spaCy POS tag to the French grammatical term
(`get_french_pos_tag`); unknown tags map to themselves. -/
def get_french_pos_tag (spacy_tag : String) : String :=
  ((FRENCH_POS_TAGS.find? (fun p => p.1 == spacy_tag)).map Prod.snd).getD spacy_tag

/-- One entry of `analyze_sentence_structure`'s output: the token-info
dictionary built for each token. -/
structure TokenInfo where
  text : String
  lemma_ : String
  pos_ : String
  french_pos : String
  tag_ : String
  dep_ : String
  is_punctuation : Bool
  is_stop : Bool
deriving DecidableEq, Repr

/-- Analyze a French sentence and return its grammatical structure
(`analyze_sentence_structure`): one info record per token, with
`french_pos` overridden to "Sujet" for nominal subjects. -/
def analyze_sentence_structure (parser : String → Doc) (sentence : String) :
    List TokenInfo :=
  (parser sentence).map fun t =>
    { text := t.text
      lemma_ := t.lemma_
      pos_ := t.pos_
      french_pos :=
        if t.dep_ = "nsubj" ∨ t.dep_ = "nsubj:pass" then "Sujet"
        else get_french_pos_tag t.pos_
      tag_ := t.tag_
      dep_ := t.dep_
      is_punctuation := t.is_punct
      is_stop := t.is_stop }

/-- Detect French compound tenses (`detect_compound_tenses`): filter the
auxiliaries and the non-être/avoir verbs of the phrase; with exactly one
auxiliary of lemma "avoir"/"être" report passé composé, with exactly two
auxiliaries (first "avoir"/"être", second "avoir") report
plus-que-parfait, otherwise nothing.  (The source line
`if (len(auxiliaries) == 1 and auxiliaries[0].lemma_ in ("avoir", "être"):`
carries a stray opening parenthesis; the embedding reads it as the
evidently intended condition.) -/
def detect_compound_tenses (verb_phrase : List SToken) : Option String :=
  let auxiliaries := verb_phrase.filter (fun t => t.pos_ == "AUX")
  let verbs := verb_phrase.filter
    (fun t => t.pos_ == "VERB" && t.lemma_ != "être" && t.lemma_ != "avoir")
  if auxiliaries.isEmpty || verbs.isEmpty then none
  else
    match auxiliaries with
    | [a] =>
        if a.lemma_ == "avoir" || a.lemma_ == "être" then some "passé composé"
        else none
    | [a, b] =>
        if (a.lemma_ == "avoir" || a.lemma_ == "être") && b.lemma_ == "avoir" then
          some "plus-que-parfait"
        else none
    | _ => none

/-- Head token of `t` in `doc` (spaCy `token.head`): the token whose
sequential index is `t.headIdx`; a root is its own head in spaCy, which
the `getD t` default mirrors. -/
def headTok (doc : Doc) (t : SToken) : SToken :=
  (doc.find? (fun u => u.i == t.headIdx)).getD t

/-- Left syntactic children of `h` in `doc` (spaCy `token.lefts`). -/
def lefts (doc : Doc) (h : SToken) : List SToken :=
  doc.filter (fun u => u.headIdx == h.i && u.i < h.i)

/-- Right syntactic children of `h` in `doc` (spaCy `token.rights`). -/
def rights (doc : Doc) (h : SToken) : List SToken :=
  doc.filter (fun u => u.headIdx == h.i && h.i < u.i)

/-- First misplacement pattern of `validate_adverb_placement`: the
adverb's head is a verb having a nominal-subject left dependent. -/
def advBetweenSubjectAndVerb (doc : Doc) (t : SToken) : Bool :=
  (headTok doc t).pos_ == "VERB" &&
    (lefts doc (headTok doc t)).any
      (fun u => u.dep_ == "nsubj" || u.dep_ == "nsubj:pass")

/-- Second pattern's guard: the adverb's head is an auxiliary and the
adverb stands after it (`token.head.pos_ == "AUX" and token.i > token.head.i`). -/
def advAfterAux (doc : Doc) (t : SToken) : Bool :=
  (headTok doc t).pos_ == "AUX" && (headTok doc t).i < t.i

/-- Verb phrase handed to the tense detector by
`validate_adverb_placement`: the auxiliary head followed by its right
children that are verbs. -/
def tenseFor (doc : Doc) (t : SToken) : Option String :=
  detect_compound_tenses
    (headTok doc t :: (rights doc (headTok doc t)).filter (fun u => u.pos_ == "VERB"))

/-- Diagnostic message for the subject–verb separation pattern. -/
def msgSV (t : SToken) : String :=
  "Adverbe " ++ sq ++ t.text ++ sq ++ " mal placé. En français, l" ++ sq ++
    "adverbe ne doit généralement pas séparer le sujet et le verbe."

/-- Diagnostic message for the compound-tense misplacement pattern. -/
def msgCT (tense : String) (t h : SToken) : String :=
  "Dans le " ++ tense ++ ", l" ++ sq ++ "adverbe " ++ sq ++ t.text ++ sq ++
    " devrait normalement se placer après l" ++ sq ++ "auxiliaire " ++ sq ++
    h.text ++ sq ++ "."

/-- Loop body of `validate_adverb_placement`: scan the tokens in order and
return on the first violating adverb. -/
def vapScan (doc : Doc) : List SToken → Bool × Option String
  | [] => (true, none)
  | t :: rest =>
      if t.pos_ == "ADV" then
        if advBetweenSubjectAndVerb doc t then (false, some (msgSV t))
        else if advAfterAux doc t then
          match tenseFor doc t with
          | some tense => (false, some (msgCT tense t (headTok doc t)))
          | none => vapScan doc rest
        else vapScan doc rest
      else vapScan doc rest

/-- Validate adverb placement in French sentences
(`validate_adverb_placement`): parse the sentence and scan its tokens,
returning `(False, message)` on the first misplaced adverb and
`(True, None)` when none is found. -/
def validate_adverb_placement (parser : String → Doc) (sentence : String) :
    Bool × Option String :=
  vapScan (parser sentence) (parser sentence)

/-! Grammar checker service (src/app/cors/grammar_checker.py). -/

/-- Whitespace characters stripped by CPython `str.strip()` (the ASCII
ones; the checked inputs are modelled over these). -/
def pyIsSpace (c : Char) : Bool :=
  c = ' ' || c = '\t' || c = '\n' || c = '\x0d' ||
    c = Char.ofNat 11 || c = Char.ofNat 12

/-- CPython `str.strip()` on the character sequence. -/
def pyStrip (s : String) : String :=
  String.mk (((s.data.dropWhile pyIsSpace).reverse.dropWhile pyIsSpace).reverse)

/-- Model of the external text-generation pipeline
(`self.ai_grammar_model`): a prompt either yields a generated text or
raises (`Except.error`). -/
structure AIModel where
  generate : String → Except String String

/-- First prompt built by `_get_ai_suggestions`. -/
def promptCorrige (text : String) : String :=
  "Corrigez cette phrase en français en expliquant la règle: " ++ text

/-- Second prompt built by `_get_ai_suggestions`. -/
def promptSuggestions (text : String) : String :=
  "Suggestions d" ++ sq ++ "amélioration pour: " ++ text

/-- Stats dictionary produced by the checker: total error count and the
insertion-ordered label-to-count mapping under key "by_type". -/
structure Stats where
  total_errors : Nat
  by_type : List (String × Nat)
deriving DecidableEq, Repr

/-- CPython `dict` read-and-increment `m[k] += 1` on a string-keyed count
mapping (every key incremented by the checked code is present). -/
def bumpCount (m : List (String × Nat)) (k : String) : List (String × Nat) :=
  match m with
  | [] => []
  | (k2, n) :: rest =>
      if k2 = k then (k2, n + 1) :: rest else (k2, n) :: bumpCount rest k

/-- Structured result of grammar checking (`GrammarCheckResult`); the
source field named `structure` is spelled `structure_` here because
`structure` is a Lean keyword. -/
structure GrammarCheckResult where
  original_text : String
  errors : List GrammarError
  structure_ : List TokenInfo
  ai_suggestions : List String
  stats : Stats

namespace FrenchGrammarChecker

/-- Get AI-powered suggestions (`FrenchGrammarChecker._get_ai_suggestions`):
nothing is requested when there are no errors; otherwise the two prompts
are run in order, and any raised exception is swallowed, degrading to an
empty suggestion list. -/
def get_ai_suggestions (ai : AIModel) (text : String)
    (errors : List GrammarError) : List String :=
  if errors.isEmpty then []
  else
    match ai.generate (promptCorrige text), ai.generate (promptSuggestions text) with
    | .ok a, .ok b => [a, b]
    | _, _ => []

/-- Generate statistics about errors
(`FrenchGrammarChecker._generate_stats`): all five French labels start at
zero in enum order, then each error bumps its label. -/
def generate_stats (errors : List GrammarError) : Stats :=
  { total_errors := errors.length
    by_type :=
      errors.foldl (fun m e => bumpCount m e.rule_type.french_label)
        (RuleType.members.map (fun t => (t.french_label, 0))) }

/-- Return empty result for empty input
(`FrenchGrammarChecker._empty_result`): note the `by_type` mapping is the
empty dictionary here. -/
def empty_result (text : String) : GrammarCheckResult :=
  { original_text := text
    errors := []
    structure_ := []
    ai_suggestions := []
    stats := { total_errors := 0, by_type := [] } }

/-- Perform comprehensive grammar checking (`FrenchGrammarChecker.check`):
short-circuit blank input, then combine rule errors, AI suggestions,
structure analysis and statistics. -/
def check (reg : Registry) (parser : String → Doc) (ai : AIModel)
    (text : String) : GrammarCheckResult :=
  if (pyStrip text).data.isEmpty then empty_result text
  else
    let errors := FrenchGrammarRules.check reg parser text
    let ai_suggestions := get_ai_suggestions ai text errors
    let structure_ := analyze_sentence_structure parser text
    let stats := generate_stats errors
    { original_text := text
      errors := errors
      structure_ := structure_
      ai_suggestions := ai_suggestions
      stats := stats }

end FrenchGrammarChecker

/-! Auxiliary predicates used to state the specification claims. -/

/-- Boolean prefix test on lists (used for the substring test below). -/
def listHasPrefix [BEq α] : List α → List α → Bool
  | _, [] => true
  | [], _ :: _ => false
  | a :: l, b :: m => a == b && listHasPrefix l m

/-- Boolean substring test on lists. -/
def listHasInfix [BEq α] : List α → List α → Bool
  | l, pat => listHasPrefix l pat ||
      match l with
      | [] => false
      | _ :: l2 => listHasInfix l2 pat

/-- Substring test on strings (character-sequence based). -/
def strContains (s pat : String) : Bool :=
  listHasInfix s.data pat.data

/-- Spec-side notion of a past-participle-tagged token: its fine-grained
morphological tag carries the participle and past-tense features, the way
the French spaCy tag set encodes them. -/
def tagIsPastParticiple (tag : String) : Bool :=
  strContains tag "VerbForm=Part" && strContains tag "Tense=Past"

/-- Spec-side reading of the passé composé clause of the claim: exactly
one auxiliary, it has lemma "avoir" or "être", and it governs a
past-participle-tagged verb of the phrase. -/
@[reducible] def claimPasseCompose (vp : List SToken) : Prop :=
  (vp.filter (fun t => t.pos_ == "AUX")).length = 1 ∧
  ∃ a ∈ vp, a.pos_ = "AUX" ∧ (a.lemma_ = "avoir" ∨ a.lemma_ = "être") ∧
    ∃ v ∈ vp, v.pos_ = "VERB" ∧ tagIsPastParticiple v.tag_ = true ∧ v.headIdx = a.i

/-- Amended passé composé condition actually implemented by
`detect_compound_tenses`: exactly one auxiliary token, of lemma "avoir"
or "être", plus at least one verb token whose lemma is neither "être"
nor "avoir"; no participle tag or government is consulted. -/
def amendedPasseCompose (vp : List SToken) : Prop :=
  (∃ a, vp.filter (fun t => t.pos_ == "AUX") = [a] ∧
      (a.lemma_ = "avoir" ∨ a.lemma_ = "être")) ∧
  ∃ v ∈ vp, v.pos_ = "VERB" ∧ v.lemma_ ≠ "être" ∧ v.lemma_ ≠ "avoir"

/-- Amended plus-que-parfait condition actually implemented by
`detect_compound_tenses`: exactly two auxiliary tokens in phrase order,
the first of lemma "avoir" or "être" and the second of lemma "avoir",
plus at least one verb token whose lemma is neither "être" nor "avoir". -/
def amendedPlusQueParfait (vp : List SToken) : Prop :=
  (∃ a b, vp.filter (fun t => t.pos_ == "AUX") = [a, b] ∧
      (a.lemma_ = "avoir" ∨ a.lemma_ = "être") ∧ b.lemma_ = "avoir") ∧
  ∃ v ∈ vp, v.pos_ = "VERB" ∧ v.lemma_ ≠ "être" ∧ v.lemma_ ≠ "avoir"

/-- Misplaced-adverb predicate implemented by
`validate_adverb_placement`: an adverb token matching either the
subject–verb separation pattern or the compound-tense pattern. -/
def isMisplacedAdverb (doc : Doc) (t : SToken) : Bool :=
  t.pos_ == "ADV" && (advBetweenSubjectAndVerb doc t ||
    (advAfterAux doc t && (tenseFor doc t).isSome))

/-- Message `validate_adverb_placement` composes for a violating adverb. -/
def violationMessage (doc : Doc) (t : SToken) : String :=
  if advBetweenSubjectAndVerb doc t then msgSV t
  else
    match tenseFor doc t with
    | some tense => msgCT tense t (headTok doc t)
    | none => msgSV t

/-- Number of violations carried by a `validate_adverb_placement`
result: one when a message is reported, zero otherwise. -/
def reportedCount : Bool × Option String → Nat
  | (_, some _) => 1
  | (_, none) => 0

/-- Lookup in a string-keyed count mapping (Python `m.get(k)` /
`k in m` probing of the stats dictionary). -/
def lookupCount (m : List (String × Nat)) (k : String) : Option Nat :=
  (m.find? (fun p => p.1 == k)).map Prod.snd

/-! Concrete fixtures: small parsed documents, rules and collaborators
used to evaluate the verified statements on explicit inputs. -/

/-- Build a token with the given POS, lemma, tag, dependency label,
index and head index; the surface text is the lemma. -/
def mkTok (pos lem tag dep : String) (i h : Nat) : SToken :=
  { text := lem, lemma_ := lem, pos_ := pos, tag_ := tag, dep_ := dep,
    i := i, headIdx := h, is_punct := false, is_stop := false }

/-- Verb phrase with one "avoir" auxiliary and an infinitive-tagged
verb: a phrase without any past participle. -/
def vpAuxInfinitive : List SToken :=
  [mkTok "AUX" "avoir" "AUX__Mood=Ind|Number=Sing|Person=1|Tense=Pres|VerbForm=Fin" "aux:tense" 0 1,
   mkTok "VERB" "manger" "VERB__VerbForm=Inf" "ROOT" 1 1]

/-- Parsed document with two misplaced adverbs, each sitting between a
nominal subject and the verb governing it. -/
def docTwoBadAdverbs : Doc :=
  [ mkTok "PRON" "je" "PRON" "nsubj" 0 2,
    mkTok "ADV" "souvent" "ADV" "advmod" 1 2,
    mkTok "VERB" "manger" "VERB" "ROOT" 2 2,
    mkTok "PRON" "tu" "PRON" "nsubj" 3 5,
    mkTok "ADV" "vite" "ADV" "advmod" 4 5,
    mkTok "VERB" "courir" "VERB" "conj" 5 2 ]

/-- Parser stub returning `docTwoBadAdverbs` for every input. -/
def pTwoBadAdverbs : String → Doc := fun _ => docTwoBadAdverbs

/-- Parser stub returning an empty parse. -/
def pEmpty : String → Doc := fun _ => []

/-- Parser stub agreeing with `pEmpty` on non-empty input. -/
def pEmptyAlt : String → Doc :=
  fun s => if s.data.isEmpty then [mkTok "X" "x" "X" "ROOT" 0 0] else []

/-- Sample adverb-category error (its `source_text` is a placeholder the
orchestrator overwrites). -/
def errAdv : GrammarError :=
  ⟨.ADVERB, "adverbe mal placé", "déplacer", "ctx", 0, 2, "placeholder"⟩

/-- Sample structure-category error at the same start offset as `errAdv`. -/
def errStr : GrammarError :=
  ⟨.STRUCTURE, "ordre des mots", "réordonner", "ctx", 0, 3, "placeholder"⟩

/-- Rule stub registered for the adverb category, yielding `errAdv`. -/
def ruleAdvW : GrammarRule := ⟨.ADVERB, fun _ => .ok [errAdv]⟩

/-- Replacement rule stub for the adverb category, yielding nothing. -/
def ruleAdvW2 : GrammarRule := ⟨.ADVERB, fun _ => .ok []⟩

/-- Rule stub registered for the structure category, yielding `errStr`. -/
def ruleStrW : GrammarRule := ⟨.STRUCTURE, fun _ => .ok [errStr]⟩

/-- Rule stub that raises on every parse. -/
def ruleFailW : GrammarRule := ⟨.CONJUGATION, fun _ => .error "boom"⟩

/-- Two-rule registry in enum order, each rule emitting an error of its
own category at start offset 0. -/
def regTwoRules : Registry :=
  [(RuleType.ADVERB, ruleAdvW), (RuleType.STRUCTURE, ruleStrW)]

/-- Singleton registry holding only the adverb rule stub. -/
def regAdvOnly : Registry := [(RuleType.ADVERB, ruleAdvW)]

/-- Error with offsets 2..4 into the six-character text "abcdef". -/
def errHi : GrammarError :=
  ⟨.ADVERB, "m", "s", "c", 2, 4, "abcdef"⟩

/-- AI pipeline stub that always generates. -/
def aiOkW : AIModel := ⟨fun _ => .ok "suggestion"⟩

/-- AI pipeline stub that always raises. -/
def aiFailW : AIModel := ⟨fun _ => .error "down"⟩

/-- Lexicographic comparison: primary key strictly smaller, or keys equal
and secondary measure no larger.  A stable sort by `key` of an `m`-sorted
list is pairwise in this relation. -/
def lexLE (key m : α → Nat) (a b : α) : Prop :=
  key a < key b ∨ (key a = key b ∧ m a ≤ m b)

/-! Generic facts about the stable sort. -/

theorem mem_insertStable (key : α → Nat) (x : α) (l : List α) (a : α) :
    a ∈ insertStable key x l ↔ a = x ∨ a ∈ l := by
  induction l with
  | nil => simp [insertStable]
  | cons y ys ih =>
      by_cases h : key x < key y
      · simp [insertStable, h]
      · simp [insertStable, h, ih]
        tauto

theorem pairwise_insertStable (key m : α → Nat) (x : α) (l : List α)
    (hl : l.Pairwise (lexLE key m)) (hm : ∀ y ∈ l, m y ≤ m x) :
    (insertStable key x l).Pairwise (lexLE key m) := by
  induction l with
  | nil => simp [insertStable]
  | cons y ys ih =>
      rcases List.pairwise_cons.1 hl with ⟨hy, hys⟩
      by_cases h : key x < key y
      · rw [insertStable, if_pos h]
        refine List.pairwise_cons.2 ⟨?_, hl⟩
        intro z hz
        rcases List.mem_cons.1 hz with rfl | hz
        · exact Or.inl h
        · rcases hy z hz with h2 | ⟨h2, _⟩
          · exact Or.inl (h.trans h2)
          · exact Or.inl (h2 ▸ h)
      · rw [insertStable, if_neg h]
        refine List.pairwise_cons.2 ⟨?_, ?_⟩
        · intro z hz
          rcases (mem_insertStable key x ys z).1 hz with rfl | hz
          · rcases Nat.lt_or_ge (key y) (key z) with h2 | h2
            · exact Or.inl h2
            · exact Or.inr ⟨Nat.le_antisymm (Nat.le_of_not_lt h) h2,
                hm y (List.mem_cons_self y ys)⟩
          · exact hy z hz
        · exact ih hys (fun y2 hy2 => hm y2 (List.mem_cons_of_mem y hy2))

theorem pairwise_foldl_insertStable (key m : α → Nat) :
    ∀ (l acc : List α), l.Pairwise (fun a b => m a ≤ m b) →
      acc.Pairwise (lexLE key m) → (∀ y ∈ acc, ∀ x ∈ l, m y ≤ m x) →
      (l.foldl (fun acc x => insertStable key x acc) acc).Pairwise (lexLE key m)
  | [], _, _, hacc, _ => hacc
  | x :: xs, acc, hl, hacc, hcross => by
      rcases List.pairwise_cons.1 hl with ⟨hx, hxs⟩
      rw [List.foldl_cons]
      refine pairwise_foldl_insertStable key m xs (insertStable key x acc) hxs ?_ ?_
      · exact pairwise_insertStable key m x acc hacc
          (fun y hy => hcross y hy x (List.mem_cons_self x xs))
      · intro y hy z hz
        rcases (mem_insertStable key x acc y).1 hy with rfl | hy
        · exact hx z hz
        · exact hcross y hy z (List.mem_cons_of_mem x hz)

theorem pairwise_stableSortByKey (key m : α → Nat) (l : List α)
    (hl : l.Pairwise (fun a b => m a ≤ m b)) :
    (stableSortByKey key l).Pairwise (lexLE key m) :=
  pairwise_foldl_insertStable key m l [] hl (List.Pairwise.nil) (by simp)

theorem mem_foldl_insertStable (key : α → Nat) :
    ∀ (l acc : List α) (a : α),
      (a ∈ l.foldl (fun acc x => insertStable key x acc) acc ↔ a ∈ acc ∨ a ∈ l)
  | [], acc, a => by simp
  | x :: xs, acc, a => by
      rw [List.foldl_cons, mem_foldl_insertStable key xs _ a,
        mem_insertStable key x acc a]
      simp
      tauto

theorem mem_stableSortByKey (key : α → Nat) (l : List α) (a : α) :
    a ∈ stableSortByKey key l ↔ a ∈ l := by
  rw [stableSortByKey, mem_foldl_insertStable key l [] a]
  simp

/-! Facts about the registry dictionary. -/

theorem dictGet_dictSet_self (m : Registry) (k : RuleType) (v : GrammarRule) :
    dictGet (dictSet m k v) k = some v := by
  induction m with
  | nil => simp [dictGet, dictSet]
  | cons p rest ih =>
      by_cases h : p.1 = k
      · simp [dictGet, dictSet, h]
      · simp [dictGet, dictSet, h, ih]

theorem dictGet_dictSet_other (m : Registry) (k : RuleType) (v : GrammarRule)
    (t : RuleType) (h : t ≠ k) :
    dictGet (dictSet m k v) t = dictGet m t := by
  have hk : ¬ (k = t) := fun e => h (Eq.symm e)
  induction m with
  | nil => simp [dictGet, dictSet, hk]
  | cons p rest ih =>
      obtain ⟨k2, v2⟩ := p
      by_cases h2 : k2 = k
      · subst h2
        simp [dictGet, dictSet, hk]
      · simp [dictGet, dictSet, h2, ih]

/-- Merged (pre-sort) error list of the orchestrator: when the registry
keys appear in enum order and every rule only emits errors of its own
category, the concatenation is weakly sorted by category enum order. -/
theorem flatten_cat_sorted (text : String) (doc : Doc) :
    ∀ reg : Registry,
      reg.Pairwise (fun p q => p.1.enumIdx ≤ q.1.enumIdx) →
      (∀ p ∈ reg, ∀ e ∈ ruleErrors text doc p.2, e.rule_type = p.1) →
      ((reg.map (fun p => ruleErrors text doc p.2)).flatten).Pairwise
        (fun a b => a.rule_type.enumIdx ≤ b.rule_type.enumIdx)
  | [], _, _ => by simp
  | p :: ps, h1, h2 => by
      rcases List.pairwise_cons.1 h1 with ⟨hp, hps⟩
      rw [List.map_cons, List.flatten_cons]
      refine List.pairwise_append.2 ⟨?_, ?_, ?_⟩
      · have hall : ∀ e ∈ ruleErrors text doc p.2, e.rule_type = p.1 :=
          h2 p (List.mem_cons_self p ps)
        refine List.pairwise_of_forall_mem_list ?_
        intro a ha b hb
        rw [hall a ha, hall b hb]
      · exact flatten_cat_sorted text doc ps hps
          (fun q hq => h2 q (List.mem_cons_of_mem p hq))
      · intro a ha b hb
        rcases List.mem_flatten.1 hb with ⟨l, hl, hbl⟩
        rcases List.mem_map.1 hl with ⟨q, hq, rfl⟩
        rw [h2 p (List.mem_cons_self p ps) a ha,
          h2 q (List.mem_cons_of_mem p hq) b hbl]
        exact hp q hq

/-- C1: for every checked text, the error list returned by
`FrenchGrammarRules.check` is sorted by start offset ascending, and
errors with equal start offsets are ordered by rule category enum order.
The two hypotheses record what holds of the orchestrator's registry: its
keys sit in enum declaration order (as `_load_rules` inserts them and
dict updates preserve), and each registered rule emits only errors of its
own category (the rule classes themselves are not part of the sources;
this is the spec's description of them).  The conclusion then follows
from the stability of Python's sort. -/
theorem check_sorted_by_start_with_category_ties
    (reg : Registry) (parser : String → Doc) (text : String)
    (h1 : reg.Pairwise (fun p q => p.1.enumIdx ≤ q.1.enumIdx))
    (h2 : ∀ p ∈ reg, ∀ e ∈ ruleErrors text (parser text) p.2, e.rule_type = p.1) :
    (FrenchGrammarRules.check reg parser text).Pairwise
      (fun a b => a.start_pos ≤ b.start_pos ∧
        (a.start_pos = b.start_pos → a.rule_type.enumIdx ≤ b.rule_type.enumIdx)) := by
  have hflat := flatten_cat_sorted text (parser text) reg h1 h2
  have hs := pairwise_stableSortByKey (fun e : GrammarError => e.start_pos)
    (fun e : GrammarError => e.rule_type.enumIdx) _ hflat
  exact hs.imp (fun hab => hab.elim
    (fun hlt => ⟨Nat.le_of_lt hlt, fun he => absurd he (Nat.ne_of_lt hlt)⟩)
    (fun h => ⟨Nat.le_of_eq h.1, fun _ => h.2⟩))

/-- Witness for C1: the two-rule registry, in enum order, on a parse. -/
theorem check_sorted_by_start_with_category_ties_witness :
    (FrenchGrammarRules.check regTwoRules pEmpty "ab").Pairwise
      (fun a b => a.start_pos ≤ b.start_pos ∧
        (a.start_pos = b.start_pos → a.rule_type.enumIdx ≤ b.rule_type.enumIdx)) :=
  check_sorted_by_start_with_category_ties regTwoRules pEmpty "ab"
    (by simp [regTwoRules, List.pairwise_cons, RuleType.enumIdx])
    (by
      intro p hp e he
      rcases List.mem_cons.1 hp with rfl | hp2
      · simp [ruleErrors, ruleAdvW, errAdv] at he
        simp [he]
      · rcases List.mem_cons.1 hp2 with rfl | hp3
        · simp [ruleErrors, ruleStrW, errStr] at he
          simp [he]
        · cases hp3)

/-- C2: a rule whose `apply` raises contributes zero errors, the
exception does not escape `FrenchGrammarRules.check`, and the other
rules' errors are returned exactly as without it. -/
theorem check_isolates_failing_rule (pre post : Registry) (t : RuleType)
    (r : GrammarRule) (parser : String → Doc) (text msg : String)
    (hfail : r.apply (parser text) = .error msg) :
    FrenchGrammarRules.check (pre ++ (t, r) :: post) parser text =
      FrenchGrammarRules.check (pre ++ post) parser text := by
  unfold FrenchGrammarRules.check
  have hr : ruleErrors text (parser text) r = [] := by
    simp [ruleErrors, hfail]
  simp [List.map_append, List.flatten_append, hr]

/-- Witness for C2: dropping the raising conjugation rule stub leaves the
check of the remaining registry unchanged. -/
theorem check_isolates_failing_rule_witness :
    FrenchGrammarRules.check
        [(RuleType.ADVERB, ruleAdvW), (RuleType.CONJUGATION, ruleFailW)]
        pEmpty "ab" =
      FrenchGrammarRules.check [(RuleType.ADVERB, ruleAdvW)] pEmpty "ab" :=
  check_isolates_failing_rule [(RuleType.ADVERB, ruleAdvW)] []
    RuleType.CONJUGATION ruleFailW pEmpty "ab" "boom" rfl

/-- C9: with a deterministic parser — two parser invocations that return
the same document — two `check` calls on the same text return identical
error lists, in the same order. -/
theorem check_deterministic (reg : Registry) (p1 p2 : String → Doc)
    (text : String) (h : p1 text = p2 text) :
    FrenchGrammarRules.check reg p1 text = FrenchGrammarRules.check reg p2 text := by
  unfold FrenchGrammarRules.check
  rw [h]

/-- Witness for C9: two parser stubs agreeing on the checked text. -/
theorem check_deterministic_witness :
    FrenchGrammarRules.check regTwoRules pEmpty "ab" =
      FrenchGrammarRules.check regTwoRules pEmptyAlt "ab" :=
  check_deterministic regTwoRules pEmpty pEmptyAlt "ab" (by decide)

/-- C10: every error returned by `FrenchGrammarRules.check` carries the
checked text as its `source_text`: the orchestrator overwrites whatever
the rule had stored there before collecting the error. -/
theorem check_attaches_source_text (reg : Registry) (parser : String → Doc)
    (text : String) (e : GrammarError)
    (he : e ∈ FrenchGrammarRules.check reg parser text) :
    e.source_text = text := by
  unfold FrenchGrammarRules.check at he
  rw [mem_stableSortByKey] at he
  rcases List.mem_flatten.1 he with ⟨l, hl, hel⟩
  rcases List.mem_map.1 hl with ⟨p, hp, rfl⟩
  rcases hap : p.2.apply (parser text) with msg | es
  · simp only [ruleErrors, hap] at hel
    cases hel
  · simp only [ruleErrors, hap] at hel
    rcases List.mem_map.1 hel with ⟨e0, he0, rfl⟩
    rfl

/-- Witness for C10: the collected error carries the checked text even
though the emitting rule stored a placeholder. -/
theorem check_attaches_source_text_witness :
    ({ errAdv with source_text := "ab" } : GrammarError).source_text = "ab" :=
  check_attaches_source_text regAdvOnly pEmpty "ab"
    { errAdv with source_text := "ab" } (by decide)

/-- Counterexample to C3: on the whitespace-only input `" "` the checker
returns the `_empty_result` stats, whose `by_type` dictionary is empty,
so the rule-category labels are not present with count zero — the label
"Place des adverbes" is absent altogether. -/
theorem check_blank_stats_label_missing :
    lookupCount
        ((FrenchGrammarChecker.check [] pEmpty aiOkW " ").stats.by_type)
        (RuleType.french_label RuleType.ADVERB) ≠ some 0 := by
  decide

/-- C3 as amended: for empty or whitespace-only input the checker
returns `_empty_result`: zero errors, empty structure list, empty AI
suggestion list and stats `{total_errors: 0, by_type: {}}` — the
`by_type` mapping is empty rather than holding all five labels at zero —
and the result does not depend on the parser or the AI suggester, which
are never invoked. -/
theorem check_blank_input (reg : Registry) (parser : String → Doc)
    (ai : AIModel) (text : String) (h : (pyStrip text).data = []) :
    FrenchGrammarChecker.check reg parser ai text =
      FrenchGrammarChecker.empty_result text := by
  simp [FrenchGrammarChecker.check, h]

/-- Witness for C3 (amended): the two-space input short-circuits. -/
theorem check_blank_input_witness :
    FrenchGrammarChecker.check regTwoRules pTwoBadAdverbs aiOkW "  " =
      FrenchGrammarChecker.empty_result "  " :=
  check_blank_input regTwoRules pTwoBadAdverbs aiOkW "  " (by decide)

/-- C4: the errors, structure breakdown and stats of a check result do
not depend on the AI suggester; when the rule-based error list is empty
no suggestion is produced (the AI is not consulted); and when the AI
pipeline raises on either prompt the suggestion list degrades to empty,
the rest of the result being what it is under any other suggester. -/
theorem ai_suggestions_isolated (reg : Registry) (parser : String → Doc)
    (text : String) (ai1 ai2 : AIModel) :
    ((FrenchGrammarChecker.check reg parser ai1 text).errors =
        (FrenchGrammarChecker.check reg parser ai2 text).errors ∧
      (FrenchGrammarChecker.check reg parser ai1 text).structure_ =
        (FrenchGrammarChecker.check reg parser ai2 text).structure_ ∧
      (FrenchGrammarChecker.check reg parser ai1 text).stats =
        (FrenchGrammarChecker.check reg parser ai2 text).stats) ∧
    ((FrenchGrammarChecker.check reg parser ai1 text).errors = [] →
      (FrenchGrammarChecker.check reg parser ai1 text).ai_suggestions = []) ∧
    (∀ msg : String,
      ai1.generate (promptCorrige text) = .error msg ∨
        ai1.generate (promptSuggestions text) = .error msg →
      (FrenchGrammarChecker.check reg parser ai1 text).ai_suggestions = []) := by
  by_cases hb : (pyStrip text).data.isEmpty
  · simp [FrenchGrammarChecker.check, hb, FrenchGrammarChecker.empty_result]
  · refine ⟨⟨?_, ?_, ?_⟩, ?_, ?_⟩
    · simp [FrenchGrammarChecker.check, hb]
    · simp [FrenchGrammarChecker.check, hb]
    · simp [FrenchGrammarChecker.check, hb]
    · intro h
      simp [FrenchGrammarChecker.check, hb] at h ⊢
      simp [FrenchGrammarChecker.get_ai_suggestions, h]
    · intro msg hmsg
      simp only [FrenchGrammarChecker.check, hb, Bool.false_eq_true, if_false]
      unfold FrenchGrammarChecker.get_ai_suggestions
      by_cases he : (FrenchGrammarRules.check reg parser text).isEmpty
      · simp [he]
      · simp only [he, Bool.false_eq_true, if_false]
        rcases hmsg with h1 | h1
        · rw [h1]
        · rw [h1]
          rcases ai1.generate (promptCorrige text) with m2 | s2 <;> rfl

/-- Witness for C4: a registry producing one error and an AI pipeline
that raises on the first prompt yield an empty suggestion list. -/
theorem ai_suggestions_isolated_witness :
    (FrenchGrammarChecker.check regAdvOnly pEmpty aiFailW "ab").ai_suggestions = [] :=
  (ai_suggestions_isolated regAdvOnly pEmpty "ab" aiFailW aiOkW).2.2 "down"
    (Or.inl rfl)

/-- Counterexample to C5: on a phrase made of one "avoir" auxiliary and
an infinitive-tagged verb, `detect_compound_tenses` answers passé
composé although no past-participle-tagged verb is present, so the
claimed characterization fails on this input. -/
theorem detect_compound_tenses_cex :
    detect_compound_tenses vpAuxInfinitive = some "passé composé" ∧
    ¬ claimPasseCompose vpAuxInfinitive := by
  constructor
  · decide
  · decide

/-- C5 as amended: `detect_compound_tenses` answers passé composé
exactly when the phrase holds exactly one auxiliary token, of lemma
"avoir" or "être", and at least one verb token whose lemma is neither
"être" nor "avoir"; plus-que-parfait exactly when it holds exactly two
auxiliary tokens — the first of lemma "avoir"/"être", the second
"avoir" — and such a verb token; and nothing otherwise.  No
past-participle tag, government relation or ordering is consulted. -/
theorem detect_compound_tenses_characterization (vp : List SToken) :
    (detect_compound_tenses vp = some "passé composé" ↔
      amendedPasseCompose vp) ∧
    (detect_compound_tenses vp = some "plus-que-parfait" ↔
      amendedPlusQueParfait vp) ∧
    (detect_compound_tenses vp = none ↔
      ¬ amendedPasseCompose vp ∧ ¬ amendedPlusQueParfait vp) := by
  have hne : ("passé composé" : String) ≠ "plus-que-parfait" := by decide
  have hVchar :
      (vp.filter (fun t => t.pos_ == "VERB" && t.lemma_ != "être" &&
          t.lemma_ != "avoir")).isEmpty = true ↔
        ¬ ∃ v ∈ vp, v.pos_ = "VERB" ∧ v.lemma_ ≠ "être" ∧ v.lemma_ ≠ "avoir" := by
    rw [List.isEmpty_iff, List.filter_eq_nil_iff]
    simp
  rcases hA : vp.filter (fun t => t.pos_ == "AUX") with _ | ⟨a, _ | ⟨b, _ | ⟨c, tl⟩⟩⟩
  · simp [detect_compound_tenses, hA, amendedPasseCompose, amendedPlusQueParfait]
  · by_cases hV : (vp.filter (fun t => t.pos_ == "VERB" && t.lemma_ != "être" &&
        t.lemma_ != "avoir")).isEmpty = true
    · have hnoverb := hVchar.1 hV
      simp [detect_compound_tenses, hA, hV, amendedPasseCompose,
        amendedPlusQueParfait, hnoverb]
    · have hverb := not_not.1 ((not_congr hVchar).1 hV)
      by_cases hl : (a.lemma_ == "avoir" || a.lemma_ == "être") = true
      · have hl2 : a.lemma_ = "avoir" ∨ a.lemma_ = "être" := by simpa using hl
        simp [detect_compound_tenses, hA, hV, hl, amendedPasseCompose,
          amendedPlusQueParfait, hne, hl2, hverb]
      · have hl2 : ¬ (a.lemma_ = "avoir" ∨ a.lemma_ = "être") := by simpa using hl
        simp [detect_compound_tenses, hA, hV, hl, amendedPasseCompose,
          amendedPlusQueParfait, hl2]
  · by_cases hV : (vp.filter (fun t => t.pos_ == "VERB" && t.lemma_ != "être" &&
        t.lemma_ != "avoir")).isEmpty = true
    · have hnoverb := hVchar.1 hV
      simp [detect_compound_tenses, hA, hV, amendedPasseCompose,
        amendedPlusQueParfait, hnoverb]
    · have hverb := not_not.1 ((not_congr hVchar).1 hV)
      by_cases hl : ((a.lemma_ == "avoir" || a.lemma_ == "être") &&
          b.lemma_ == "avoir") = true
      · have hl2 : (a.lemma_ = "avoir" ∨ a.lemma_ = "être") ∧ b.lemma_ = "avoir" := by
          simpa using hl
        simp [detect_compound_tenses, hA, hV, hl, amendedPasseCompose,
          amendedPlusQueParfait, hne, hl2.2, hverb]
        exact ⟨fun _ => ⟨a, b, ⟨rfl, rfl⟩, hl2.1, hl2.2⟩,
          fun _ hna => hl2.1.resolve_left hna⟩
      · have hl2 : ¬ ((a.lemma_ = "avoir" ∨ a.lemma_ = "être") ∧ b.lemma_ = "avoir") := by
          simpa using hl
        simp [detect_compound_tenses, hA, hV, hl, amendedPasseCompose,
          amendedPlusQueParfait, hl2]
        intro hp hq
        exact absurd ⟨hp, hq⟩ hl2
  · simp [detect_compound_tenses, hA, amendedPasseCompose, amendedPlusQueParfait]

/-- Scan underlying `validate_adverb_placement`: it answers `(True,
None)` exactly when no token of the scanned list is a misplaced adverb,
and otherwise stops at the first misplaced adverb, reporting its
message. -/
theorem vapScan_characterization (doc : Doc) :
    ∀ l : List SToken,
      (vapScan doc l = (true, none) ↔ l.filter (isMisplacedAdverb doc) = []) ∧
      (∀ t, (l.filter (isMisplacedAdverb doc)).head? = some t →
        vapScan doc l = (false, some (violationMessage doc t)))
  | [] => by simp [vapScan]
  | t :: rest => by
      have ih := vapScan_characterization doc rest
      by_cases hADV : (t.pos_ == "ADV") = true
      · by_cases h1 : advBetweenSubjectAndVerb doc t = true
        · have hmis : isMisplacedAdverb doc t = true := by
            simp [isMisplacedAdverb, hADV, h1]
          constructor
          · simp [vapScan, hADV, h1, List.filter_cons, hmis]
          · intro u hu
            simp only [List.filter_cons, hmis, if_true, List.head?_cons,
              Option.some.injEq] at hu
            subst hu
            simp [vapScan, hADV, h1, violationMessage]
        · by_cases h2 : advAfterAux doc t = true
          · rcases hT : tenseFor doc t with _ | tense
            · have hmis : isMisplacedAdverb doc t = false := by
                simp [isMisplacedAdverb, hADV, h1, h2, hT]
              constructor
              · simp [vapScan, hADV, h1, h2, hT, List.filter_cons, hmis, ih.1]
              · intro u hu
                simp only [List.filter_cons, hmis, Bool.false_eq_true,
                  if_false] at hu
                have := ih.2 u hu
                simp [vapScan, hADV, h1, h2, hT, this]
            · have hmis : isMisplacedAdverb doc t = true := by
                simp [isMisplacedAdverb, hADV, h2, hT]
              constructor
              · simp [vapScan, hADV, h1, h2, hT, List.filter_cons, hmis]
              · intro u hu
                simp only [List.filter_cons, hmis, if_true, List.head?_cons,
                  Option.some.injEq] at hu
                subst hu
                simp [vapScan, hADV, h1, h2, hT, violationMessage]
          · have hmis : isMisplacedAdverb doc t = false := by
              simp [isMisplacedAdverb, hADV, h1, h2]
            constructor
            · simp [vapScan, hADV, h1, h2, List.filter_cons, hmis, ih.1]
            · intro u hu
              simp only [List.filter_cons, hmis, Bool.false_eq_true,
                if_false] at hu
              have := ih.2 u hu
              simp [vapScan, hADV, h1, h2, this]
      · have hmis : isMisplacedAdverb doc t = false := by
          simp [isMisplacedAdverb, hADV]
        constructor
        · simp [vapScan, hADV, List.filter_cons, hmis, ih.1]
        · intro u hu
          simp only [List.filter_cons, hmis, Bool.false_eq_true, if_false] at hu
          have := ih.2 u hu
          simp [vapScan, hADV, this]

/-- Counterexample to C6: on a parse holding two adverbs that each
violate the subject–verb separation rule, `validate_adverb_placement`
reports a single violation, not one per occurrence. -/
theorem validate_adverb_placement_cex :
    reportedCount
        (validate_adverb_placement pTwoBadAdverbs "Je souvent mange et tu vite cours") ≠
      ((pTwoBadAdverbs "Je souvent mange et tu vite cours").filter
        (isMisplacedAdverb (pTwoBadAdverbs "Je souvent mange et tu vite cours"))).length := by
  decide

/-- C6 as amended: `validate_adverb_placement` reports at most one
violation per sentence: it returns `(True, None)` exactly when no adverb
occurrence violates a placement rule, and otherwise `(False, message)`
for the first violating occurrence only, the later misplaced adverbs
going unreported; the report is a message with no character range. -/
theorem validate_adverb_placement_first_only (parser : String → Doc) (s : String) :
    (validate_adverb_placement parser s = (true, none) ↔
      (parser s).filter (isMisplacedAdverb (parser s)) = []) ∧
    (∀ t, ((parser s).filter (isMisplacedAdverb (parser s))).head? = some t →
      validate_adverb_placement parser s = (false, some (violationMessage (parser s) t))) :=
  vapScan_characterization (parser s) (parser s)

/-- Witness for C6 (amended): with two misplaced adverbs in the parse,
the first one ("souvent") is the one reported. -/
theorem validate_adverb_placement_first_only_witness :
    validate_adverb_placement pTwoBadAdverbs "Je souvent mange et tu vite cours" =
      (false, some (violationMessage docTwoBadAdverbs
        (mkTok "ADV" "souvent" "ADV" "advmod" 1 2))) :=
  (validate_adverb_placement_first_only pTwoBadAdverbs
      "Je souvent mange et tu vite cours").2
    (mkTok "ADV" "souvent" "ADV" "advmod" 1 2) (by decide)

/-- C7: for offsets with `start_pos ≤ end_pos` fitting the source text —
i.e. for any split of the source characters into a prefix of length
`start_pos`, a span of length `end_pos - start_pos` and a suffix — the
lazily computed `highlighted` view is exactly prefix, opening marker
">>>", the erroneous span, closing marker "<<<", then suffix.  The view
is a pure derived function: computing it neither mutates the error nor
stores the string on it. -/
theorem highlighted_decomposition (e : GrammarError) (B S A : List Char)
    (hBSA : e.source_text.data = B ++ S ++ A)
    (hB : B.length = e.start_pos)
    (hS : S.length = e.end_pos - e.start_pos)
    (hse : e.start_pos ≤ e.end_pos) :
    e.highlighted = String.mk (B ++ ">>>".data ++ S ++ "<<<".data ++ A) := by
  simp only [GrammarError.highlighted]
  rw [hBSA]
  have h1 : (B ++ S ++ A).take e.start_pos = B := by
    rw [← hB, List.append_assoc]
    exact List.take_left B (S ++ A)
  have h2 : ((B ++ S ++ A).drop e.start_pos).take (e.end_pos - e.start_pos) = S := by
    rw [← hS, ← hB, List.append_assoc, List.drop_left B (S ++ A)]
    exact List.take_left S A
  have h3 : (B ++ S ++ A).drop e.end_pos = A := by
    have he : e.end_pos = (B ++ S).length := by
      rw [List.length_append, hB, hS]
      omega
    rw [he, List.drop_left (B ++ S) A]
  rw [h1, h2, h3]

/-- Witness for C7: the error `errHi` over "abcdef" with span 2..4. -/
theorem highlighted_decomposition_witness :
    errHi.highlighted =
      String.mk ("ab".data ++ ">>>".data ++ "cd".data ++ "<<<".data ++ "ef".data) :=
  highlighted_decomposition errHi "ab".data "cd".data "ef".data
    (by decide) (by decide) (by decide) (by decide)

/-- C8: registering a rule for an already-present type makes `get_rule`
of that type return the new rule, and leaves the rule registered for
every other type unchanged. -/
theorem get_rule_after_add (reg : Registry) (r : GrammarRule)
    (hpresent : (FrenchGrammarRules.get_rule reg r.rule_type).isSome = true) :
    FrenchGrammarRules.get_rule (FrenchGrammarRules.add_rule reg r) r.rule_type =
        some r ∧
      ∀ t : RuleType, t ≠ r.rule_type →
        FrenchGrammarRules.get_rule (FrenchGrammarRules.add_rule reg r) t =
          FrenchGrammarRules.get_rule reg t :=
  ⟨dictGet_dictSet_self reg r.rule_type r,
   fun t ht => dictGet_dictSet_other reg r.rule_type r t ht⟩

/-- Witness for C8: replacing the registered adverb rule. -/
theorem get_rule_after_add_witness :
    FrenchGrammarRules.get_rule (FrenchGrammarRules.add_rule regAdvOnly ruleAdvW2)
        RuleType.ADVERB = some ruleAdvW2 :=
  (get_rule_after_add regAdvOnly ruleAdvW2 rfl).1

end FrenchGrammar
